import Mathlib

/-!
Verification of the chanjing SDK (Python) against its specification.

Shallow embedding conventions:
- Python floats holding wall-clock times / intervals are modelled as `ℚ`.
- Python `str` is `String`; `Optional[str]` is `Option String`.
- `time.sleep d` is modelled as advancing the wall clock by exactly `d`.
- Fallible paths return explicit result constructors instead of exceptions.
-/

namespace Chanjing

/-- Python truthiness of an optional string: `None` and `""` are falsy. -/
def pyTruthy : Option String → Bool
  | none => false
  | some s => !(s == "")

/-- Python `str.strip()`: drop leading and trailing whitespace. -/
def pyStrip (s : String) : String :=
  ⟨((s.data.dropWhile Char.isWhitespace).reverse.dropWhile
      Char.isWhitespace).reverse⟩

/- ────────────────────────── auth.py: _resolve_credentials ────────────── -/

/-- External credential sources seen by `AuthManager._resolve_credentials`:
`envAppId` / `envSecretKey` are `os.environ.get(..., "")`; `configFile` is
`none` when `~/.chanjing/config.json` is absent, unreadable or unparsable
(the `except` branch) and `some (appId, secretKey)` holds the two fields read
with `config.get(..., "")`. -/
structure CredSources where
  envAppId : String
  envSecretKey : String
  configFile : Option (String × String)

/-- Result of `_resolve_credentials`: either the resolved pair, or the
`ValueError` whose message lists the three configuration options. -/
inductive CredResult where
  | ok (appId secretKey : String)
  | configError
deriving DecidableEq, Repr

/-- auth.py lines 55-89, `AuthManager._resolve_credentials`: explicit
arguments (checked for truthiness untrimmed, returned trimmed), then
environment variables (trimmed before the check), then the config file
(fields trimmed before the check), else the configuration error. -/
def resolve_credentials (app_id secret_key : Option String)
    (src : CredSources) : CredResult :=
  if pyTruthy app_id && pyTruthy secret_key then
    .ok (pyStrip (app_id.getD "")) (pyStrip (secret_key.getD ""))
  else
    let envA := pyStrip src.envAppId
    let envS := pyStrip src.envSecretKey
    if envA ≠ "" ∧ envS ≠ "" then .ok envA envS
    else
      match src.configFile with
      | some (fa, fs) =>
          if pyStrip fa ≠ "" ∧ pyStrip fs ≠ "" then .ok (pyStrip fa) (pyStrip fs)
          else .configError
      | none => .configError

/- ────────────────────────── api.py: RateLimiter ──────────────────────── -/

/-- api.py lines 32-37: `RateLimiter.INTERVALS.get(category,
INTERVALS["default"])` — per-category minimum interval in seconds. -/
def INTERVALS (category : String) : ℚ :=
  if category = "lip_sync" then 6
  else if category = "voice_clone" then 6
  else if category = "tts" then 1/2
  else 1

/-- api.py lines 42-53, `RateLimiter.wait`: `last` is
`self._timestamps.get(category, 0)`; `now` is `time.time()` on entry.
Returns `(sleepTime, newTimestamp)` where the new per-category timestamp is
taken after sleeping (`time.time()` again, i.e. `now + sleepTime` in the
exact-sleep model). -/
def rateLimiterWait (last : Option ℚ) (category : String) (now : ℚ) :
    ℚ × ℚ :=
  let interval := INTERVALS category
  let lastTime := last.getD 0
  let elapsed := now - lastTime
  let sleepTime := if elapsed < interval then interval - elapsed else 0
  (sleepTime, now + sleepTime)

/- ────────────────────────── api.py: ApiClient.request ────────────────── -/

/-- Outcome of one `requests.request(...)` + `raise_for_status()` attempt
inside `ApiClient.request` (api.py lines 135-155): success, the two caught
transient exception classes, `HTTPError`, or any other exception. -/
inductive Att where
  | ok
  | connError
  | timeout
  | httpError
  | otherError
deriving DecidableEq, Repr

/-- An attempt outcome the retry loop treats as transient. -/
def Att.transient : Att → Bool
  | .connError => true
  | .timeout => true
  | _ => false

/-- Final outcome of `ApiClient.request`. -/
inductive ReqResult where
  | respOk
  | raisedHttpError
  | raisedOther
  | connectivityError (lastExc : Option Att)
deriving DecidableEq, Repr

/-- api.py lines 134-157, the retry loop of `ApiClient.request` over the
remaining attempts (the list has one entry per remaining attempt, so the
initial call gets a list of length `max_retries`). Returns the outcome, the
number of attempts actually made, and the sleeps performed (a
`retry_delay`-second sleep happens only when another attempt remains). -/
def requestLoop (retryDelay : ℚ) :
    List Att → Option Att → ReqResult × ℕ × List ℚ
  | [], lastExc => (.connectivityError lastExc, 0, [])
  | a :: rest, lastExc =>
    match a with
    | .ok => (.respOk, 1, [])
    | .connError =>
        let r := requestLoop retryDelay rest (some .connError)
        (r.1, r.2.1 + 1, if rest.isEmpty then r.2.2 else retryDelay :: r.2.2)
    | .timeout =>
        let r := requestLoop retryDelay rest (some .timeout)
        (r.1, r.2.1 + 1, if rest.isEmpty then r.2.2 else retryDelay :: r.2.2)
    | .httpError => (.raisedHttpError, 1, [])
    | .otherError => (.raisedOther, 1, [])

/-- Result `ApiClient.request` produces at the first non-transient attempt
outcome (it propagates immediately). -/
def nonTransientResult : Att → ReqResult
  | .ok => .respOk
  | .httpError => .raisedHttpError
  | _ => .raisedOther

/-- `ApiClient.request` with `max_retries = atts.length`:
`last_exception` starts as `None`. -/
def apiRequest (retryDelay : ℚ) (atts : List Att) : ReqResult × ℕ × List ℚ :=
  requestLoop retryDelay atts none

/- ────────────────────────── api.py: json_request ─────────────────────── -/

/-- Parsed body of a business response: the `code` field and the `msg`
field (`result.get("msg", "未知错误")` with the default already applied). -/
structure JsonResp where
  code : Int
  msg : String
deriving DecidableEq, Repr

/-- The `headers` kwarg as far as `json_request` inspects it:
whether the dict has an `"access_token"` key, and its value. -/
structure ReqHeaders where
  hasAccessToken : Bool
  accessToken : String
deriving DecidableEq, Repr

/-- api.py lines 190-194: the fresh token replaces the `access_token`
header only when the headers dict already contains that key. -/
def substituteToken (hdrs : ReqHeaders) (fresh : String) : ReqHeaders :=
  if hdrs.hasAccessToken then { hdrs with accessToken := fresh } else hdrs

/-- Terminal outcome of `json_request`. -/
inductive JsonOutcome where
  | ok (body : JsonResp)
  | permissionError (code : Int) (msg : String)
  | apiError (code : Int) (msg : String)
deriving DecidableEq, Repr

/-- Observable trace of one `json_request` call: outcome (`none` when the
stubbed response list ran out), HTTP requests issued, `auth.reset()` calls,
and the headers passed to the auth-retry call if one happened. -/
structure JsonTrace where
  outcome : Option JsonOutcome
  attempts : ℕ
  resets : ℕ
  retryHeaders : Option ReqHeaders
deriving DecidableEq, Repr

/-- api.py lines 161-210, `ApiClient.json_request`: each element of the
list is the parsed body of one successive HTTP round-trip; `fresh` is the
token `self._auth.get_token(self)` returns after the reset. `code == 0`
returns the body; an auth-expired code (10400/10401) with `_retried_auth`
unset resets auth, substitutes the fresh token into the headers (when an
`access_token` entry exists) and recurses once with the flag set; an
auth-expired code with the flag set raises `PermissionError`; any other
code raises the generic `RuntimeError`. -/
def json_request (fresh : String) :
    List JsonResp → ReqHeaders → Bool → JsonTrace
  | [], _, _ => ⟨none, 0, 0, none⟩
  | r :: rest, hdrs, retriedAuth =>
    if r.code = 0 then ⟨some (.ok r), 1, 0, none⟩
    else if (r.code = 10400 ∨ r.code = 10401) ∧ ¬retriedAuth then
      let hdrs2 := substituteToken hdrs fresh
      let t := json_request fresh rest hdrs2 true
      ⟨t.outcome, t.attempts + 1, t.resets + 1, some hdrs2⟩
    else if r.code = 10400 ∨ r.code = 10401 then
      ⟨some (.permissionError r.code r.msg), 1, 0, none⟩
    else ⟨some (.apiError r.code r.msg), 1, 0, none⟩

/- ────────────────────────── auth.py: get_token ───────────────────────── -/

/-- In-memory token state of `AuthManager`: `_token`, `_token_expire`,
`_token_config_hash`. -/
structure AuthState where
  token : Option String
  tokenExpire : ℚ
  tokenCfgHash : Option String
deriving DecidableEq, Repr

/-- `AuthManager.reset` / the clearing performed on credential change. -/
def clearedAuth : AuthState := ⟨none, 0, none⟩

/-- What `_load_token_cache` finds on disk: no cache file (state is left
unchanged), an unreadable/unparsable file (the `except` branch zeroes the
state), or a parsed file with the three stored fields. -/
inductive DiskRead where
  | absent
  | corrupt
  | stored (token : Option String) (expire : ℚ) (cfgHash : Option String)
deriving DecidableEq, Repr

/-- auth.py lines 97-108, `_load_token_cache` applied to the state. -/
def applyDisk : DiskRead → AuthState → AuthState
  | .absent, st => st
  | .corrupt, _ => clearedAuth
  | .stored t e h, _ => ⟨t, e, h⟩

/-- Environment of one `get_token` call: `cfgHash` is `self._config_hash`;
`disk` is the token-cache file; `now` is `time.time()` at entry;
`freshToken` is `data.get("access_token")` of the refresh response and
`refreshNow` the `time.time()` inside `_refresh_token`. -/
structure GetTokenIn where
  cfgHash : String
  disk : DiskRead
  now : ℚ
  freshToken : Option String
  refreshNow : ℚ

/-- How a `get_token` call ended: a cached token was returned, a freshly
refreshed token was returned, or the refresh response carried an empty
token and `RuntimeError` was raised. -/
inductive GetTokenOut where
  | cached (t : String)
  | refreshed (t : String)
  | emptyTokenError
deriving DecidableEq, Repr

/-- auth.py lines 131-151, `_refresh_token`: sets the three fields (expiry
`time.time() + 24 * 3600`, fingerprint `self._config_hash`) and raises when
the returned token is falsy. Third component counts refreshes (always 1). -/
def refreshToken (inp : GetTokenIn) : GetTokenOut × AuthState × ℕ :=
  let st : AuthState :=
    ⟨inp.freshToken, inp.refreshNow + 24 * 3600, some inp.cfgHash⟩
  match inp.freshToken with
  | none => (.emptyTokenError, st, 1)
  | some t => if t = "" then (.emptyTokenError, st, 1) else (.refreshed t, st, 1)

/-- auth.py lines 169-177: the disk-cache phase of `get_token`, entered
when `self._token is None`. `st2` is the state after `_load_token_cache`;
the loaded token is returned when truthy, not near expiry and with a
matching fingerprint; otherwise a refresh follows. (The extra clearing at
lines 174-177 is unobservable because `_refresh_token` overwrites all
three fields.) -/
def getTokenFromDisk (inp : GetTokenIn) (st2 : AuthState) :
    GetTokenOut × AuthState × ℕ :=
  match st2.token with
  | some t =>
      if t ≠ "" ∧ inp.now < st2.tokenExpire - 300
          ∧ st2.tokenCfgHash = some inp.cfgHash then
        (.cached t, st2, 0)
      else refreshToken inp
  | none => refreshToken inp

/-- auth.py lines 166-180: `get_token` after the credential-change
clearing. A truthy in-memory token is returned while
`now < expire - 300`; a falsy non-`None` token goes straight to refresh;
`None` enters the disk-cache phase. -/
def getTokenAfterClear (inp : GetTokenIn) (st1 : AuthState) :
    GetTokenOut × AuthState × ℕ :=
  match st1.token with
  | some t =>
      if t ≠ "" ∧ inp.now < st1.tokenExpire - 300 then (.cached t, st1, 0)
      else refreshToken inp
  | none => getTokenFromDisk inp (applyDisk inp.disk st1)

/-- auth.py lines 153-180, `AuthManager.get_token`: clear on credential
change (lines 161-164), then the in-memory / disk / refresh cascade.
Returns the outcome, the final in-memory state, and the number of
refreshes. -/
def get_token (inp : GetTokenIn) (st0 : AuthState) :
    GetTokenOut × AuthState × ℕ :=
  getTokenAfterClear inp
    (if st0.tokenCfgHash ≠ some inp.cfgHash then clearedAuth else st0)

/- ────────────────────────── api.py: billing keywords ─────────────────── -/

/-- Python `kw in msg` restricted to the head position: `kw` is a prefix. -/
def matchesHere : List Char → List Char → Bool
  | [], _ => true
  | _ :: _, [] => false
  | k :: ks, c :: cs => k == c && matchesHere ks cs

/-- Python substring containment `kw in msg` over the character list. -/
def occursIn (kw : List Char) : List Char → Bool
  | [] => matchesHere kw []
  | c :: cs => matchesHere kw (c :: cs) || occursIn kw cs

/-- Python `kw in msg` on strings. -/
def strContains (msg kw : String) : Bool :=
  occursIn kw.data msg.data

/-- api.py line 319: `BILLING_KEYWORDS`. -/
def BILLING_KEYWORDS : List String :=
  ["扣费失败", "余额不足", "蝉豆不足", "蝉豆余额", "欠费"]

/-- api.py lines 322-331, `check_billing_error`: `true` iff it raises the
billing-specific `RuntimeError` (empty message: no; otherwise any keyword
contained in the message: yes). -/
def check_billing_error (msg : String) : Bool :=
  if msg = "" then false
  else BILLING_KEYWORDS.any (fun kw => strContains msg kw)

/- ────────────────────────── polling loops ────────────────────────────── -/

/-- One iteration's status-query result inside a polling loop: the
`json_request` either raised (`err`) or returned a parsed `data` payload.
The max-wait timeout check and the sleeps are time-driven and outside
these failure-handling models; a run is cut off by the input list ending
(`stillPolling`). -/
inductive PollStep (α : Type) where
  | err
  | ok (d : α)
deriving DecidableEq, Repr

/-- `data` payload of `audio_task_state` as tts.py `_poll` reads it:
`status`, `errMsg` / `errReason` (defaults `""` applied), and
`full.url` / `full.duration` (defaults `""` / `0` applied). -/
structure TTSData where
  status : Int
  errMsg : String
  errReason : String
  fullUrl : String
  fullDuration : ℚ
deriving DecidableEq, Repr

/-- Terminal outcome of `TTSService._poll`. -/
inductive TTSPollOut where
  | success (url : String) (duration : ℚ)
  | billingError (msg : String)
  | failed (detail : String)
  | missingUrl
  | pollFailed5
  | stillPolling
deriving DecidableEq, Repr

/-- tts.py lines 156-160: estimated progress from the poll counter. -/
def ttsEstPct (pollCount : ℕ) : ℕ :=
  if pollCount ≤ 6 then min 90 (pollCount * 15)
  else min 95 (90 + (pollCount - 6))

/-- tts.py lines 98-168, `TTSService._poll` over the successive query
results, threading `consecutive_errors` (`ce`) and `poll_count` (`pc`).
Returns the outcome and the percent values passed to `on_progress` under
the `"语音合成"` stage. -/
def ttsPoll : List (PollStep TTSData) → ℕ → ℕ → TTSPollOut × List ℕ
  | [], _, _ => (.stillPolling, [])
  | .err :: rest, ce, pc =>
      if ce + 1 ≥ 5 then (.pollFailed5, [])
      else ttsPoll rest (ce + 1) pc
  | .ok d :: rest, _, pc =>
      if d.status = 9 then
        if d.errMsg ≠ "" then
          if check_billing_error d.errMsg then (.billingError d.errMsg, [])
          else
            (.failed (d.errMsg ++
              (if d.errReason ≠ "" then "（原因: " ++ d.errReason ++ "）"
               else "")), [])
        else if d.fullUrl = "" then (.missingUrl, [])
        else (.success d.fullUrl d.fullDuration, [])
      else if d.status = 1 then
        let r := ttsPoll rest 0 (pc + 1)
        (r.1, ttsEstPct (pc + 1) :: r.2)
      else ttsPoll rest 0 (pc + 1)

/-- `data` payload of `customised_audio` as voice_clone.py `_poll_clone`
reads it: `status`, `progress` (default 0) and `err_msg` (default
`"未知错误"`), defaults applied. -/
structure VCData where
  status : Int
  progress : Int
  errMsg : String
deriving DecidableEq, Repr

/-- Terminal outcome of `VoiceCloneService._poll_clone`. -/
inductive VCPollOut where
  | done
  | billingError (msg : String)
  | failed (msg : String)
  | expired
  | deleted
  | pollFailed5
  | stillPolling
deriving DecidableEq, Repr

/-- voice_clone.py lines 146-207, `VoiceCloneService._poll_clone`,
threading `consecutive_errors` (`ce`), `last_status` (`ls`) and
`last_pct` (`lp`). Returns the outcome and the percent values passed to
`on_progress` under the `"声音克隆"` stage. -/
def vcPoll : List (PollStep VCData) → ℕ → Int → Int → VCPollOut × List Int
  | [], _, _, _ => (.stillPolling, [])
  | .err :: rest, ce, ls, lp =>
      if ce + 1 ≥ 5 then (.pollFailed5, [])
      else vcPoll rest (ce + 1) ls lp
  | .ok d :: rest, _, ls, lp =>
      if d.status = 2 then (.done, [100])
      else if d.status = 4 then
        if check_billing_error d.errMsg then (.billingError d.errMsg, [])
        else (.failed d.errMsg, [])
      else if d.status = 3 then (.expired, [])
      else if d.status = 99 then (.deleted, [])
      else if d.status != ls || d.progress != lp then
        let r := vcPoll rest 0 d.status d.progress
        (r.1, d.progress :: r.2)
      else vcPoll rest 0 ls lp

/-- `data` payload of `video_lip_sync/detail` as lip_sync.py `_poll` reads
it: `status`, `progress` (default 0), `msg` (default `""`), `video_url`
(default `""`), `duration` (default 0). -/
structure LipData where
  status : Int
  progress : Int
  msg : String
  videoUrl : String
  durationMs : Int
deriving DecidableEq, Repr

/-- Terminal outcome of `LipSyncService._poll`. `queryError` means a
status-query exception propagated out of the loop (there is no
try/except around the `json_request` in this loop). -/
inductive LipPollOut where
  | success (url : String) (durationMs : Int)
  | missingUrl
  | billingError (msg : String)
  | failed (msg : String)
  | queryError
  | stillPolling
deriving DecidableEq, Repr

/-- lip_sync.py lines 143-192, `LipSyncService._poll`, threading
`last_status` (`ls`) and `last_progress` (`lp`). The progress/status
change check (lines 173-179) runs before the terminal-status dispatch, so
a terminal response can also emit. Returns the outcome and the percent
values passed to `on_progress` under the `"视频合成"` stage. -/
def lipPoll : List (PollStep LipData) → Int → Int → LipPollOut × List Int
  | [], _, _ => (.stillPolling, [])
  | .err :: _, _, _ => (.queryError, [])
  | .ok d :: rest, ls, lp =>
      let emitted := d.status != ls || d.progress != lp
      let ps : List Int := if emitted then [d.progress] else []
      if d.status = 20 then
        if d.videoUrl = "" then (.missingUrl, ps)
        else (.success d.videoUrl d.durationMs, ps)
      else if d.status = 30 then
        if check_billing_error d.msg then (.billingError d.msg, ps)
        else (.failed d.msg, ps)
      else
        let r := lipPoll rest (if emitted then d.status else ls)
          (if emitted then d.progress else lp)
        (r.1, ps ++ r.2)

/-- One iteration's query result inside `_poll_file_status`: the status
read from a successful query, a raised `RuntimeError` (which the loop
re-raises — this includes the business-code failures `json_request`
raises), or any other exception (logged, loop continues). -/
inductive FileStep where
  | okStatus (s : Int)
  | errRuntime
  | errOther
deriving DecidableEq, Repr

/-- Terminal outcome of `ApiClient._poll_file_status`. -/
inductive FilePollOut where
  | synced
  | fileUnavailable (s : Int)
  | runtimeError
  | stillPolling
deriving DecidableEq, Repr

/-- api.py lines 279-314, `ApiClient._poll_file_status` over the
successive query results (the `max_wait` timeout check is time-driven and
outside this failure-handling model). There is no consecutive-failure
counter in this loop. -/
def filePoll : List FileStep → FilePollOut
  | [] => .stillPolling
  | .errRuntime :: _ => .runtimeError
  | .errOther :: rest => filePoll rest
  | .okStatus s :: rest =>
      if s = 1 then .synced
      else if s = 98 ∨ s = 99 ∨ s = 100 then .fileUnavailable s
      else filePoll rest

end Chanjing

namespace Chanjing

/- ────────────────────────── theorems: C4, C10, C8 ────────────────────── -/

/-- C4: credential resolution returns the explicit arguments (trimmed)
whenever both are non-empty; otherwise the environment pair whenever both
are non-empty after trimming; otherwise the config-file pair whenever both
fields are non-empty after trimming; otherwise the configuration error
listing all three options. -/
theorem c4_credential_resolution (a s : Option String) (src : CredSources) :
    ((pyTruthy a && pyTruthy s) = true →
      resolve_credentials a s src
        = .ok (pyStrip (a.getD "")) (pyStrip (s.getD "")))
    ∧ ((pyTruthy a && pyTruthy s) = false →
      pyStrip src.envAppId ≠ "" → pyStrip src.envSecretKey ≠ "" →
      resolve_credentials a s src
        = .ok (pyStrip src.envAppId) (pyStrip src.envSecretKey))
    ∧ (∀ fa fs, (pyTruthy a && pyTruthy s) = false →
      ¬(pyStrip src.envAppId ≠ "" ∧ pyStrip src.envSecretKey ≠ "") →
      src.configFile = some (fa, fs) →
      pyStrip fa ≠ "" → pyStrip fs ≠ "" →
      resolve_credentials a s src = .ok (pyStrip fa) (pyStrip fs))
    ∧ ((pyTruthy a && pyTruthy s) = false →
      ¬(pyStrip src.envAppId ≠ "" ∧ pyStrip src.envSecretKey ≠ "") →
      (∀ fa fs, src.configFile = some (fa, fs) →
        ¬(pyStrip fa ≠ "" ∧ pyStrip fs ≠ "")) →
      resolve_credentials a s src = .configError) := by
  refine ⟨?_, ?_, ?_, ?_⟩
  · intro h
    simp [resolve_credentials, h]
  · intro h hA hS
    simp [resolve_credentials, h, hA, hS]
  · intro fa fs h hEnv hFile hA hS
    simp [resolve_credentials, h, hEnv, hFile, hA, hS]
  · intro h hEnv hFile
    cases hf : src.configFile with
    | none => simp [resolve_credentials, h, hEnv, hf]
    | some p =>
        obtain ⟨fa, fs⟩ := p
        have := hFile fa fs hf
        simp [resolve_credentials, h, hEnv, hf, this]

/-- C4 witness: explicit arguments " x " / "y" are both non-empty, so they
win (trimmed) even with every other source populated. -/
theorem c4_credential_resolution_witness :
    resolve_credentials (some " x ") (some "y")
      ⟨"envA", "envS", some ("fa", "fs")⟩ = .ok "x" "y" :=
  (c4_credential_resolution (some " x ") (some "y")
      ⟨"envA", "envS", some ("fa", "fs")⟩).1 (by decide)

lemma pyStrip_all_whitespace (a : String)
    (h : ∀ c ∈ a.data, c.isWhitespace) : pyStrip a = "" := by
  have h1 : a.data.dropWhile Char.isWhitespace = [] := by
    rw [List.dropWhile_eq_nil_iff]
    intro x hx
    exact h x hx
  unfold pyStrip
  rw [h1]
  rfl

/-- C10: for every pair of non-empty whitespace-only explicit arguments
and every environment/config-file content, the arguments are truthy in
Python, so resolution succeeds with the pair of empty trimmed strings and
never falls through to the environment or config file and never raises. -/
theorem c10_whitespace_credentials (a s : String) (src : CredSources)
    (ha : a ≠ "") (hs : s ≠ "")
    (haw : ∀ c ∈ a.data, c.isWhitespace)
    (hsw : ∀ c ∈ s.data, c.isWhitespace) :
    resolve_credentials (some a) (some s) src = .ok "" "" := by
  have hta : pyTruthy (some a) = true := by simp [pyTruthy, ha]
  have hts : pyTruthy (some s) = true := by simp [pyTruthy, hs]
  simp [resolve_credentials, hta, hts, pyStrip_all_whitespace a haw,
    pyStrip_all_whitespace s hsw]

/-- C10 witness: the whitespace-only pair " " / "  " resolves to the empty
pair even with every other credential source populated. -/
theorem c10_whitespace_credentials_witness :
    resolve_credentials (some " ") (some "  ")
      ⟨"envA", "envS", some ("fa", "fs")⟩ = .ok "" "" :=
  c10_whitespace_credentials " " "  " ⟨"envA", "envS", some ("fa", "fs")⟩
    (by decide) (by decide) (by decide) (by decide)

/-- C8: for any category, a `wait` entered at `now` with recorded previous
timestamp `last` records its new timestamp only after sleeping
(`stamp = now + sleep`), and that new timestamp is at least `last` plus the
category's interval — so two back-to-back calls in one category are
separated by at least the configured interval; the interval table is
lip_sync/voice_clone 6s, tts 0.5s, default 1s. -/
theorem c8_rate_limiter (category : String) (last now : ℚ) :
    (rateLimiterWait (some last) category now).2
        = now + (rateLimiterWait (some last) category now).1
    ∧ last + INTERVALS category ≤ (rateLimiterWait (some last) category now).2
    ∧ INTERVALS "lip_sync" = 6 ∧ INTERVALS "voice_clone" = 6
    ∧ INTERVALS "tts" = 1/2 ∧ INTERVALS "default" = 1 := by
  refine ⟨rfl, ?_, rfl, rfl, rfl, rfl⟩
  simp only [rateLimiterWait, Option.getD]
  split
  · linarith
  · linarith [not_lt.mp (by assumption : ¬ now - last < INTERVALS category)]

/- ────────────────────────── theorems: C3 ─────────────────────────────── -/

lemma requestLoop_all_transient (delay : ℚ) :
    ∀ (atts : List Att) (le : Option Att), atts ≠ [] →
    (∀ x ∈ atts, x.transient = true) →
    requestLoop delay atts le =
      (.connectivityError atts.getLast?, atts.length,
        List.replicate (atts.length - 1) delay) := by
  intro atts
  induction atts with
  | nil => intro le h; exact absurd rfl h
  | cons a rest ih =>
    intro le _ hall
    have ha : a.transient = true := hall a (List.mem_cons_self a rest)
    cases rest with
    | nil =>
        cases a <;> simp_all [requestLoop, Att.transient]
    | cons b rest' =>
        have hrest : ∀ x ∈ b :: rest', x.transient = true := by
          intro x hx; exact hall x (List.mem_cons_of_mem a hx)
        have hne : (b :: rest') ≠ [] := by simp
        cases a <;> simp_all [requestLoop, Att.transient, ih (some _) hne hrest,
          List.replicate_succ]

lemma requestLoop_stops_nontransient (delay : ℚ) :
    ∀ (pre : List Att) (a : Att) (post : List Att) (le : Option Att),
    (∀ x ∈ pre, x.transient = true) → a.transient = false →
    requestLoop delay (pre ++ a :: post) le =
      (nonTransientResult a, pre.length + 1, List.replicate pre.length delay) := by
  intro pre
  induction pre with
  | nil =>
      intro a post le _ hna
      cases a <;> simp_all [requestLoop, Att.transient, nonTransientResult]
  | cons p pre' ih =>
      intro a post le hall hna
      have hp : p.transient = true := hall p (List.mem_cons_self p pre')
      have hpre' : ∀ x ∈ pre', x.transient = true := by
        intro x hx; exact hall x (List.mem_cons_of_mem p hx)
      have hne : (pre' ++ a :: post) ≠ [] := by simp
      cases p <;>
        simp_all [requestLoop, Att.transient, ih a post (some _) hpre' hna,
          List.replicate_succ, List.isEmpty_iff]

/-- C3: in `ApiClient.request`, (i) if every attempt fails with a
connection error or timeout, the result is a connectivity error wrapping
the last such exception, all `max_retries` attempts are made, and a fixed
`retry_delay` sleep separates consecutive attempts (`max_retries - 1`
sleeps); (ii) the first non-transient attempt outcome (success, HTTP status
error, or any other exception) propagates immediately: no further attempt
and no further sleep happen after it. -/
theorem c3_request_retry (delay : ℚ) :
    (∀ (atts : List Att), atts ≠ [] → (∀ x ∈ atts, x.transient = true) →
      apiRequest delay atts =
        (.connectivityError atts.getLast?, atts.length,
          List.replicate (atts.length - 1) delay))
    ∧ (∀ (pre : List Att) (a : Att) (post : List Att),
      (∀ x ∈ pre, x.transient = true) → a.transient = false →
      apiRequest delay (pre ++ a :: post) =
        (nonTransientResult a, pre.length + 1,
          List.replicate pre.length delay)) := by
  constructor
  · intro atts hne hall
    exact requestLoop_all_transient delay atts none hne hall
  · intro pre a post hall hna
    exact requestLoop_stops_nontransient delay pre a post none hall hna

/-- C3 witness: two transient attempts exhaust `max_retries = 2` with one
3-second sleep and wrap the last (timeout) exception; a connection error
followed by an HTTP status error stops right there. -/
theorem c3_request_retry_witness :
    apiRequest 3 [Att.connError, Att.timeout] =
      (.connectivityError (some .timeout), 2, [3])
    ∧ apiRequest 3 [Att.connError, Att.httpError] =
      (.raisedHttpError, 2, [3]) := by
  constructor
  · have h := (c3_request_retry 3).1 [Att.connError, Att.timeout]
      (by decide) (by decide)
    simpa using h
  · have h := (c3_request_retry 3).2 [Att.connError] Att.httpError []
      (by decide) (by decide)
    simpa using h

/- ────────────────────────── theorems: C1 ─────────────────────────────── -/

lemma getTokenFromDisk_cases (inp : GetTokenIn) (st2 : AuthState) :
    (∃ t, getTokenFromDisk inp st2 = (.cached t, st2, 0)
      ∧ st2.token = some t ∧ t ≠ "" ∧ inp.now < st2.tokenExpire - 300
      ∧ st2.tokenCfgHash = some inp.cfgHash)
    ∨ getTokenFromDisk inp st2 = refreshToken inp := by
  unfold getTokenFromDisk
  split
  next t ht =>
    split_ifs with hc
    · exact Or.inl ⟨t, rfl, ht, hc.1, hc.2.1, hc.2.2⟩
    · exact Or.inr rfl
  next ht => exact Or.inr rfl

lemma get_token_cases (inp : GetTokenIn) (st0 : AuthState) :
    (∃ t st', get_token inp st0 = (.cached t, st', 0)
      ∧ st'.token = some t ∧ t ≠ "" ∧ inp.now < st'.tokenExpire - 300
      ∧ st'.tokenCfgHash = some inp.cfgHash)
    ∨ get_token inp st0 = refreshToken inp := by
  unfold get_token
  by_cases hchg : st0.tokenCfgHash = some inp.cfgHash
  · rw [if_neg (by simp [hchg])]
    unfold getTokenAfterClear
    split
    next t ht =>
      split_ifs with hc
      · exact Or.inl ⟨t, st0, rfl, ht, hc.1, hc.2, hchg⟩
      · exact Or.inr rfl
    next ht =>
      rcases getTokenFromDisk_cases inp (applyDisk inp.disk st0) with
        ⟨t, heq, h1, h2, h3, h4⟩ | heq
      · exact Or.inl ⟨t, _, heq, h1, h2, h3, h4⟩
      · exact Or.inr heq
  · rw [if_pos (by simp [hchg])]
    unfold getTokenAfterClear
    simp only [clearedAuth]
    rcases getTokenFromDisk_cases inp (applyDisk inp.disk clearedAuth) with
      ⟨t, heq, h1, h2, h3, h4⟩ | heq
    · exact Or.inl ⟨t, _, by simpa [clearedAuth] using heq, h1, h2, h3, h4⟩
    · exact Or.inr (by simpa [clearedAuth] using heq)

/-- C1: full characterisation of `get_token`. A cached token is returned
only when it is non-empty, the entry time is strictly below its stored
expiry minus 300 seconds, and its stored fingerprint equals the current
credential hash (and then no refresh happens); in every other case exactly
one refresh is performed and the state holds an expiry of the refresh time
plus 24 hours with the current fingerprint. -/
theorem c1_get_token_spec (inp : GetTokenIn) (st0 : AuthState) :
    match get_token inp st0 with
    | (.cached t, st', n) =>
        n = 0 ∧ st'.token = some t ∧ t ≠ ""
          ∧ inp.now < st'.tokenExpire - 300
          ∧ st'.tokenCfgHash = some inp.cfgHash
    | (.refreshed t, st', n) =>
        n = 1 ∧ inp.freshToken = some t ∧ t ≠ "" ∧ st'.token = some t
          ∧ st'.tokenExpire = inp.refreshNow + 24 * 3600
          ∧ st'.tokenCfgHash = some inp.cfgHash
    | (.emptyTokenError, st', n) =>
        n = 1 ∧ st'.tokenExpire = inp.refreshNow + 24 * 3600
          ∧ st'.tokenCfgHash = some inp.cfgHash := by
  rcases get_token_cases inp st0 with ⟨t, st', heq, h1, h2, h3, h4⟩ | heq
  · rw [heq]
    exact ⟨rfl, h1, h2, h3, h4⟩
  · rw [heq]
    unfold refreshToken
    cases hft : inp.freshToken with
    | none => simp
    | some t => by_cases ht : t = "" <;> simp [ht]

/- ────────────────────────── theorems: C2 ─────────────────────────────── -/

/-- C2 counterexample: when the request's headers carry no `access_token`
entry, the auth retry after a 10400 response reuses the old headers
unchanged — the fresh token is *not* substituted, contradicting the claim
that substitution happens on every auth retry. -/
theorem c2_counterexample_no_substitution :
    (json_request "fresh" [⟨10400, "expired"⟩, ⟨0, "ok"⟩]
        ⟨false, "old"⟩ false).retryHeaders = some ⟨false, "old"⟩
    ∧ substituteToken ⟨false, "old"⟩ "fresh" ≠ ⟨false, "fresh"⟩ := by
  decide

/-- C2 (amended): `code == 0` returns the body; an auth-expired code not
yet retried resets auth once, substitutes the fresh token into the headers
*when they contain an `access_token` entry* (otherwise the headers pass
through unchanged), and retries exactly once; a second auth-expired code
raises the permission error; any other non-zero code raises the generic
API error with code and message. -/
theorem c2_json_request_amended (r1 r2 : JsonResp) (fresh : String)
    (hdrs : ReqHeaders) :
    (r1.code = 0 →
      json_request fresh [r1, r2] hdrs false = ⟨some (.ok r1), 1, 0, none⟩)
    ∧ ((r1.code = 10400 ∨ r1.code = 10401) →
      (json_request fresh [r1, r2] hdrs false).resets = 1
      ∧ (json_request fresh [r1, r2] hdrs false).attempts = 2
      ∧ (json_request fresh [r1, r2] hdrs false).retryHeaders
          = some (substituteToken hdrs fresh)
      ∧ (hdrs.hasAccessToken = true →
          substituteToken hdrs fresh = ⟨true, fresh⟩)
      ∧ (hdrs.hasAccessToken = false → substituteToken hdrs fresh = hdrs)
      ∧ (r2.code = 0 →
          (json_request fresh [r1, r2] hdrs false).outcome = some (.ok r2))
      ∧ ((r2.code = 10400 ∨ r2.code = 10401) →
          (json_request fresh [r1, r2] hdrs false).outcome
            = some (.permissionError r2.code r2.msg))
      ∧ (r2.code ≠ 0 → ¬(r2.code = 10400 ∨ r2.code = 10401) →
          (json_request fresh [r1, r2] hdrs false).outcome
            = some (.apiError r2.code r2.msg)))
    ∧ (r1.code ≠ 0 → ¬(r1.code = 10400 ∨ r1.code = 10401) →
      json_request fresh [r1, r2] hdrs false
        = ⟨some (.apiError r1.code r1.msg), 1, 0, none⟩) := by
  refine ⟨?_, ?_, ?_⟩
  · intro h
    simp [json_request, h]
  · intro h
    have h0 : ¬ r1.code = 0 := by rcases h with h | h <;> omega
    refine ⟨?_, ?_, ?_, ?_, ?_, ?_, ?_, ?_⟩
    · by_cases h2 : r2.code = 0
      · simp [json_request, h, h0, h2]
      · by_cases h2a : r2.code = 10400 ∨ r2.code = 10401 <;>
          simp [json_request, h, h0, h2, h2a]
    · by_cases h2 : r2.code = 0
      · simp [json_request, h, h0, h2]
      · by_cases h2a : r2.code = 10400 ∨ r2.code = 10401 <;>
          simp [json_request, h, h0, h2, h2a]
    · simp [json_request, h, h0]
    · intro hH; simp [substituteToken, hH]
    · intro hH; simp [substituteToken, hH]
    · intro h2; simp [json_request, h, h0, h2]
    · intro h2
      have h20 : ¬ r2.code = 0 := by rcases h2 with h2 | h2 <;> omega
      simp [json_request, h, h0, h2, h20]
    · intro h20 h2a
      simp [json_request, h, h0, h20, h2a]
  · intro h0 ha
    simp [json_request, h0, ha]

/-- C2 witness: a 10400 response with token-bearing headers is retried once
with the substituted token and the retry's success body is returned; one
auth reset happens. -/
theorem c2_json_request_amended_witness :
    (json_request "fresh" [⟨10400, "e"⟩, ⟨0, "ok"⟩] ⟨true, "old"⟩
        false).resets = 1
    ∧ (json_request "fresh" [⟨10400, "e"⟩, ⟨0, "ok"⟩] ⟨true, "old"⟩
        false).retryHeaders = some ⟨true, "fresh"⟩
    ∧ (json_request "fresh" [⟨10400, "e"⟩, ⟨0, "ok"⟩] ⟨true, "old"⟩
        false).outcome = some (.ok ⟨0, "ok"⟩) := by
  have h := (c2_json_request_amended ⟨10400, "e"⟩ ⟨0, "ok"⟩ "fresh"
    ⟨true, "old"⟩).2.1 (Or.inl rfl)
  refine ⟨h.1, ?_, h.2.2.2.2.2.1 rfl⟩
  have hs := h.2.2.1
  simpa [substituteToken] using hs

end Chanjing

namespace Chanjing

/- ────────────────────────── theorems: C9 ─────────────────────────────── -/

/-- C9: a TTS poll response with `status == 9` and a non-empty `errMsg`
containing any of the billing keywords ends the operation with the
billing-specific error (not the generic processing failure), whatever the
rest of the message says. -/
theorem c9_tts_billing_error (d : TTSData) (rest : List (PollStep TTSData))
    (ce pc : ℕ) (h9 : d.status = 9) (hne : d.errMsg ≠ "")
    (hkw : ∃ kw ∈ BILLING_KEYWORDS, strContains d.errMsg kw = true) :
    (ttsPoll (.ok d :: rest) ce pc).1 = .billingError d.errMsg := by
  have hb : check_billing_error d.errMsg = true := by
    rcases hkw with ⟨kw, hmem, hc⟩
    simp only [check_billing_error, if_neg hne, List.any_eq_true]
    exact ⟨kw, hmem, hc⟩
  simp [ttsPoll, h9, hne, hb]

/-- C9 witness: a status-9 response whose message mentions 余额不足 among
other wording yields the billing error. -/
theorem c9_tts_billing_error_witness :
    (ttsPoll [.ok ⟨9, "生成失败: 账户余额不足, 请充值", "", "", 0⟩] 0 0).1
      = .billingError "生成失败: 账户余额不足, 请充值" :=
  c9_tts_billing_error ⟨9, "生成失败: 账户余额不足, 请充值", "", "", 0⟩ [] 0 0
    rfl (by decide) (by decide)

/- ────────────────────────── theorems: C5 ─────────────────────────────── -/

/-- C5 counterexample: (i) the lip-sync polling loop propagates an
isolated status-query failure instead of treating it as transient — the
run aborts even though the very next response would have been a terminal
success; (ii) the file-sync polling loop does not abort after 5
consecutive failures — six consecutive failures are absorbed and the run
still succeeds. -/
theorem c5_counterexample_polling :
    (lipPoll [.err, .ok ⟨20, 100, "", "u", 1000⟩] (-1) (-1)).1 = .queryError
    ∧ filePoll (List.replicate 6 .errOther ++ [.okStatus 1]) = .synced := by
  decide

lemma ttsPoll_err_skip : ∀ (n ce : ℕ), n + ce < 5 →
    ∀ (rest : List (PollStep TTSData)) (pc : ℕ),
    ttsPoll (List.replicate n .err ++ rest) ce pc = ttsPoll rest (ce + n) pc := by
  intro n
  induction n with
  | zero => intro ce h rest pc; simp
  | succ m ih =>
      intro ce h rest pc
      have h5 : ¬ ce + 1 ≥ 5 := by omega
      simp only [List.replicate_succ, List.cons_append, ttsPoll, if_neg h5]
      have h' := ih (ce + 1) (by omega) rest pc
      have e : ce + 1 + m = ce + (m + 1) := by omega
      rw [e] at h'
      exact h'

lemma vcPoll_err_skip : ∀ (n ce : ℕ), n + ce < 5 →
    ∀ (rest : List (PollStep VCData)) (ls lp : Int),
    vcPoll (List.replicate n .err ++ rest) ce ls lp
      = vcPoll rest (ce + n) ls lp := by
  intro n
  induction n with
  | zero => intro ce h rest ls lp; simp
  | succ m ih =>
      intro ce h rest ls lp
      have h5 : ¬ ce + 1 ≥ 5 := by omega
      simp only [List.replicate_succ, List.cons_append, vcPoll, if_neg h5]
      have h' := ih (ce + 1) (by omega) rest ls lp
      have e : ce + 1 + m = ce + (m + 1) := by omega
      rw [e] at h'
      exact h'

lemma filePoll_err_skip : ∀ (n : ℕ) (steps : List FileStep),
    filePoll (List.replicate n .errOther ++ steps) = filePoll steps := by
  intro n
  induction n with
  | zero => intro steps; simp
  | succ m ih =>
      intro steps
      simp only [List.replicate_succ, List.cons_append, filePoll]
      exact ih steps

/-- C5 (amended): only the TTS and voice-clone polling loops treat
isolated status-query failures as transient and abort at the 5th
consecutive failure (fewer than 5 consecutive failures are invisible to
the rest of the run); the lip-sync polling loop propagates the first
status-query failure immediately; the file-sync polling loop absorbs any
number of non-`RuntimeError` failures without a consecutive-failure cap
(bounded only by its max-wait timeout) and re-raises a `RuntimeError`
immediately. -/
theorem c5_amended_polling :
    (∀ (rest : List (PollStep TTSData)) (pc : ℕ),
      (ttsPoll (List.replicate 5 .err ++ rest) 0 pc).1 = .pollFailed5)
    ∧ (∀ (n : ℕ) (d : TTSData) (rest : List (PollStep TTSData)) (pc : ℕ),
      n < 5 →
      ttsPoll (List.replicate n .err ++ .ok d :: rest) 0 pc
        = ttsPoll (.ok d :: rest) 0 pc)
    ∧ (∀ (rest : List (PollStep VCData)) (ls lp : Int),
      (vcPoll (List.replicate 5 .err ++ rest) 0 ls lp).1 = .pollFailed5)
    ∧ (∀ (n : ℕ) (d : VCData) (rest : List (PollStep VCData)) (ls lp : Int),
      n < 5 →
      vcPoll (List.replicate n .err ++ .ok d :: rest) 0 ls lp
        = vcPoll (.ok d :: rest) 0 ls lp)
    ∧ (∀ (rest : List (PollStep LipData)) (ls lp : Int),
      (lipPoll (.err :: rest) ls lp).1 = .queryError)
    ∧ (∀ (n : ℕ) (steps : List FileStep),
      filePoll (List.replicate n .errOther ++ steps) = filePoll steps)
    ∧ (∀ steps : List FileStep, filePoll (.errRuntime :: steps) = .runtimeError) := by
  refine ⟨?_, ?_, ?_, ?_, ?_, filePoll_err_skip, fun steps => rfl⟩
  · intro rest pc
    have h := ttsPoll_err_skip 4 0 (by omega) (.err :: rest) pc
    have e : List.replicate 5 (PollStep.err (α := TTSData)) ++ rest
        = List.replicate 4 .err ++ (.err :: rest) := by
      simp [List.replicate_succ]
    rw [e, h]
    simp [ttsPoll]
  · intro n d rest pc hn
    rw [ttsPoll_err_skip n 0 (by omega) (.ok d :: rest) pc]
    rfl
  · intro rest ls lp
    have h := vcPoll_err_skip 4 0 (by omega) (.err :: rest) ls lp
    have e : List.replicate 5 (PollStep.err (α := VCData)) ++ rest
        = List.replicate 4 .err ++ (.err :: rest) := by
      simp [List.replicate_succ]
    rw [e, h]
    simp [vcPoll]
  · intro n d rest ls lp hn
    rw [vcPoll_err_skip n 0 (by omega) (.ok d :: rest) ls lp]
    rfl
  · intro rest ls lp
    rfl

/-- C5 amended witness: five consecutive failures abort the TTS and
voice-clone polls, four are transparent, one failure aborts the lip-sync
poll, and seven non-RuntimeError failures are absorbed by the file-sync
poll while a RuntimeError aborts it at once. -/
theorem c5_amended_polling_witness :
    (ttsPoll (List.replicate 5 .err) 0 0).1 = .pollFailed5
    ∧ ttsPoll (List.replicate 4 .err ++ [.ok ⟨1, "", "", "", 0⟩]) 0 0
        = ttsPoll [.ok ⟨1, "", "", "", 0⟩] 0 0
    ∧ (vcPoll (List.replicate 5 .err) 0 (-1) (-1)).1 = .pollFailed5
    ∧ vcPoll (List.replicate 4 .err ++ [.ok ⟨0, 10, "未知错误"⟩]) 0 (-1) (-1)
        = vcPoll [.ok ⟨0, 10, "未知错误"⟩] 0 (-1) (-1)
    ∧ (lipPoll [.err] (-1) (-1)).1 = .queryError
    ∧ filePoll (List.replicate 7 .errOther ++ [.okStatus 1])
        = filePoll [.okStatus 1]
    ∧ filePoll [.errRuntime] = .runtimeError := by
  obtain ⟨h1, h2, h3, h4, h5, h6, h7⟩ := c5_amended_polling
  exact ⟨h1 [] 0, h2 4 ⟨1, "", "", "", 0⟩ [] 0 (by omega),
    h3 [] (-1) (-1), h4 4 ⟨0, 10, "未知错误"⟩ [] (-1) (-1) (by omega),
    h5 [] (-1) (-1), h6 7 [.okStatus 1], h7 [.errRuntime]⟩

end Chanjing

namespace Chanjing

/- ────────────────────────── theorems: C7 ─────────────────────────────── -/

/-- C7 counterexample: with server responses reporting progress 50 then 30
and then a terminal success, the lip-sync poll forwards exactly those
values to the progress callback within the single stage "视频合成", and
the voice-clone poll does the same within its single stage "声音克隆" —
in both loops the emitted percents 50, 30, 100 are not non-decreasing. -/
theorem c7_counterexample_progress_passthrough :
    (lipPoll [.ok ⟨10, 50, "", "", 0⟩, .ok ⟨10, 30, "", "", 0⟩,
        .ok ⟨20, 100, "", "u", 1000⟩] (-1) (-1)).2 = [50, 30, 100]
    ∧ ¬ List.Pairwise (fun a b => a ≤ b)
        (lipPoll [.ok ⟨10, 50, "", "", 0⟩, .ok ⟨10, 30, "", "", 0⟩,
          .ok ⟨20, 100, "", "u", 1000⟩] (-1) (-1)).2
    ∧ (vcPoll [.ok ⟨1, 50, "未知错误"⟩, .ok ⟨1, 30, "未知错误"⟩,
        .ok ⟨2, 0, "未知错误"⟩] 0 (-1) (-1)).2 = [50, 30, 100]
    ∧ ¬ List.Pairwise (fun a b => a ≤ b)
        (vcPoll [.ok ⟨1, 50, "未知错误"⟩, .ok ⟨1, 30, "未知错误"⟩,
          .ok ⟨2, 0, "未知错误"⟩] 0 (-1) (-1)).2 := by
  decide

lemma ttsEstPct_mono {m n : ℕ} (h : m ≤ n) : ttsEstPct m ≤ ttsEstPct n := by
  unfold ttsEstPct
  by_cases hm : m ≤ 6 <;> by_cases hn : n ≤ 6 <;> simp [hm, hn] <;> omega

lemma ttsPoll_pcts_mono_bounded :
    ∀ (steps : List (PollStep TTSData)) (ce pc : ℕ),
    List.Pairwise (fun a b => a ≤ b) (ttsPoll steps ce pc).2
    ∧ ∀ p ∈ (ttsPoll steps ce pc).2, ttsEstPct (pc + 1) ≤ p := by
  intro steps
  induction steps with
  | nil => intro ce pc; simp [ttsPoll]
  | cons s rest ih =>
      intro ce pc
      cases s with
      | err =>
          by_cases h5 : ce + 1 ≥ 5
          · simp [ttsPoll, h5]
          · simp only [ttsPoll, if_neg h5]
            exact ih (ce + 1) pc
      | ok d =>
          by_cases h9 : d.status = 9
          · simp only [ttsPoll, if_pos h9]
            split_ifs <;> simp
          · by_cases h1 : d.status = 1
            · simp only [ttsPoll, if_neg h9, if_pos h1]
              obtain ⟨hp, hb⟩ := ih 0 (pc + 1)
              refine ⟨List.Pairwise.cons ?_ hp, ?_⟩
              · intro b hbm
                exact le_trans (ttsEstPct_mono (by omega)) (hb b hbm)
              · intro p hpm
                rcases List.mem_cons.mp hpm with hph | hpt
                · exact hph ▸ le_refl _
                · exact le_trans (ttsEstPct_mono (by omega)) (hb p hpt)
            · simp only [ttsPoll, if_neg h9, if_neg h1]
              obtain ⟨hp, hb⟩ := ih 0 (pc + 1)
              refine ⟨hp, ?_⟩
              intro p hpm
              exact le_trans (ttsEstPct_mono (by omega)) (hb p hpm)

/-- The server-reported `progress` values of the successful status queries
in a lip-sync polling run, in order. -/
def lipServerProgress : List (PollStep LipData) → List Int
  | [] => []
  | .err :: rest => lipServerProgress rest
  | .ok d :: rest => d.progress :: lipServerProgress rest

lemma lipPoll_pcts_sublist :
    ∀ (steps : List (PollStep LipData)) (ls lp : Int),
    (lipPoll steps ls lp).2.Sublist (lipServerProgress steps) := by
  intro steps
  induction steps with
  | nil => intro ls lp; simp [lipPoll, lipServerProgress]
  | cons s rest ih =>
      intro ls lp
      cases s with
      | err => simp [lipPoll, lipServerProgress, List.nil_sublist]
      | ok d =>
          have hps0 : ∀ (b : Bool),
              (if b = true then [d.progress] else []).Sublist
                (d.progress :: lipServerProgress rest) := by
            intro b
            cases b
            · exact List.Sublist.cons d.progress (List.nil_sublist _)
            · exact List.Sublist.cons₂ d.progress (List.nil_sublist _)
          have hps : ∀ (b : Bool) (r2 : List Int),
              r2.Sublist (lipServerProgress rest) →
              ((if b = true then [d.progress] else []) ++ r2).Sublist
                (d.progress :: lipServerProgress rest) := by
            intro b r2 h
            cases b
            · simpa using List.Sublist.cons d.progress h
            · simpa using List.Sublist.cons₂ d.progress h
          show (lipPoll (.ok d :: rest) ls lp).2.Sublist
            (lipServerProgress (.ok d :: rest))
          by_cases h20 : d.status = 20
          · by_cases hurl : d.videoUrl = ""
            · simp only [lipPoll, lipServerProgress, if_pos h20, if_pos hurl]
              exact hps0 _
            · simp only [lipPoll, lipServerProgress, if_pos h20, if_neg hurl]
              exact hps0 _
          · by_cases h30 : d.status = 30
            · by_cases hb : check_billing_error d.msg = true
              · simp only [lipPoll, lipServerProgress, if_neg h20, if_pos h30,
                  if_pos hb]
                exact hps0 _
              · simp only [lipPoll, lipServerProgress, if_neg h20, if_pos h30,
                  if_neg hb]
                exact hps0 _
            · simp only [lipPoll, lipServerProgress, if_neg h20, if_neg h30]
              exact hps _ _ (ih _ _)

/-- The server-reported `progress` values a voice-clone polling run can
forward: the values of the successful non-terminal status queries up to
the first terminal response (statuses 2/4/3/99 end the loop). -/
def vcServerProgress : List (PollStep VCData) → List Int
  | [] => []
  | .err :: rest => vcServerProgress rest
  | .ok d :: rest =>
      if d.status = 2 ∨ d.status = 4 ∨ d.status = 3 ∨ d.status = 99 then []
      else d.progress :: vcServerProgress rest

lemma vcPoll_pcts_shape :
    ∀ (steps : List (PollStep VCData)) (ce : ℕ) (ls lp : Int),
    ∃ l, l.Sublist (vcServerProgress steps)
      ∧ ((vcPoll steps ce ls lp).2 = l
        ∨ (vcPoll steps ce ls lp).2 = l ++ [100]) := by
  intro steps
  induction steps with
  | nil => intro ce ls lp; exact ⟨[], List.nil_sublist _, Or.inl rfl⟩
  | cons s rest ih =>
      intro ce ls lp
      cases s with
      | err =>
          by_cases h5 : ce + 1 ≥ 5
          · refine ⟨[], List.nil_sublist _, Or.inl ?_⟩
            simp [vcPoll, h5]
          · obtain ⟨l, hsub, hc⟩ := ih (ce + 1) ls lp
            refine ⟨l, ?_, ?_⟩
            · simpa [vcServerProgress] using hsub
            · simpa [vcPoll, h5] using hc
      | ok d =>
          by_cases h2s : d.status = 2
          · refine ⟨[], List.nil_sublist _, Or.inr ?_⟩
            simp [vcPoll, h2s]
          · by_cases h4 : d.status = 4
            · refine ⟨[], List.nil_sublist _, Or.inl ?_⟩
              by_cases hbe : check_billing_error d.errMsg = true <;>
                simp [vcPoll, h2s, h4, hbe]
            · by_cases h3 : d.status = 3
              · exact ⟨[], List.nil_sublist _,
                  Or.inl (by simp [vcPoll, h2s, h4, h3])⟩
              · by_cases h99 : d.status = 99
                · exact ⟨[], List.nil_sublist _,
                    Or.inl (by simp [vcPoll, h2s, h4, h3, h99])⟩
                · have hsp : vcServerProgress (.ok d :: rest)
                      = d.progress :: vcServerProgress rest := by
                    simp [vcServerProgress, h2s, h4, h3, h99]
                  by_cases hem : (d.status != ls || d.progress != lp) = true
                  · obtain ⟨l, hsub, hc⟩ := ih 0 d.status d.progress
                    refine ⟨d.progress :: l, ?_, ?_⟩
                    · rw [hsp]
                      exact List.Sublist.cons₂ d.progress hsub
                    · have he : (vcPoll (.ok d :: rest) ce ls lp).2
                          = d.progress :: (vcPoll rest 0 d.status d.progress).2 := by
                        simp [vcPoll, h2s, h4, h3, h99, hem]
                      rw [he]
                      rcases hc with hc | hc
                      · exact Or.inl (by rw [hc])
                      · exact Or.inr (by rw [hc]; rfl)
                  · obtain ⟨l, hsub, hc⟩ := ih 0 ls lp
                    refine ⟨l, ?_, ?_⟩
                    · rw [hsp]
                      exact List.Sublist.cons d.progress hsub
                    · have he : (vcPoll (.ok d :: rest) ce ls lp).2
                          = (vcPoll rest 0 ls lp).2 := by
                        simp [vcPoll, h2s, h4, h3, h99, hem]
                      rw [he]
                      exact hc

lemma vcPoll_pcts_mono (steps : List (PollStep VCData)) (ce : ℕ)
    (ls lp : Int)
    (hmono : List.Pairwise (fun a b => a ≤ b) (vcServerProgress steps))
    (hb : ∀ p ∈ vcServerProgress steps, p ≤ 100) :
    List.Pairwise (fun a b => a ≤ b) (vcPoll steps ce ls lp).2 := by
  obtain ⟨l, hsub, hc⟩ := vcPoll_pcts_shape steps ce ls lp
  have hlmono : List.Pairwise (fun a b => a ≤ b) l :=
    List.Pairwise.sublist hsub hmono
  have hlb : ∀ p ∈ l, p ≤ 100 := fun p hp => hb p (hsub.subset hp)
  rcases hc with hc | hc
  · rw [hc]
    exact hlmono
  · rw [hc, List.pairwise_append]
    refine ⟨hlmono, by simp, ?_⟩
    intro a ha b hbm
    have hb100 : b = 100 := by simpa using hbm
    rw [hb100]
    exact hlb a ha

/-- C7 (amended): the TTS poll's estimated percents (derived from the poll
counter) are monotonically non-decreasing within the stage; the lip-sync
and voice-clone polls forward the server-reported progress values
verbatim, so their within-stage percents are non-decreasing only when the
server reports a non-decreasing progress sequence (for voice-clone: one
that also stays within the contract bound of 100, since its completion
emits the literal 100) — the SDK itself does not enforce monotonicity
there. -/
theorem c7_amended_progress :
    (∀ (steps : List (PollStep TTSData)) (ce pc : ℕ),
      List.Pairwise (fun a b => a ≤ b) (ttsPoll steps ce pc).2)
    ∧ (∀ (steps : List (PollStep LipData)) (ls lp : Int),
      List.Pairwise (fun a b => a ≤ b) (lipServerProgress steps) →
      List.Pairwise (fun a b => a ≤ b) (lipPoll steps ls lp).2)
    ∧ (∀ (steps : List (PollStep VCData)) (ce : ℕ) (ls lp : Int),
      List.Pairwise (fun a b => a ≤ b) (vcServerProgress steps) →
      (∀ p ∈ vcServerProgress steps, p ≤ 100) →
      List.Pairwise (fun a b => a ≤ b) (vcPoll steps ce ls lp).2) := by
  refine ⟨?_, ?_, ?_⟩
  · intro steps ce pc
    exact (ttsPoll_pcts_mono_bounded steps ce pc).1
  · intro steps ls lp h
    exact List.Pairwise.sublist (lipPoll_pcts_sublist steps ls lp) h
  · intro steps ce ls lp hmono hb
    exact vcPoll_pcts_mono steps ce ls lp hmono hb

/-- C7 amended witness: a two-response TTS run emits the non-decreasing
estimates 15, 30; a lip-sync run whose server reports 20 then 80 emits the
non-decreasing 20, 80; a voice-clone run whose server reports 20 then 80
and then completes emits the non-decreasing 20, 80, 100. -/
theorem c7_amended_progress_witness :
    List.Pairwise (fun a b => a ≤ b)
      (ttsPoll [.ok ⟨1, "", "", "", 0⟩, .ok ⟨1, "", "", "", 0⟩] 0 0).2
    ∧ List.Pairwise (fun a b => a ≤ b)
      (lipPoll [.ok ⟨10, 20, "", "", 0⟩, .ok ⟨10, 80, "", "", 0⟩]
        (-1) (-1)).2
    ∧ List.Pairwise (fun a b => a ≤ b)
      (vcPoll [.ok ⟨0, 20, "未知错误"⟩, .ok ⟨1, 80, "未知错误"⟩,
        .ok ⟨2, 0, "未知错误"⟩] 0 (-1) (-1)).2 := by
  obtain ⟨h1, h2, h3⟩ := c7_amended_progress
  exact ⟨h1 [.ok ⟨1, "", "", "", 0⟩, .ok ⟨1, "", "", "", 0⟩] 0 0,
    h2 [.ok ⟨10, 20, "", "", 0⟩, .ok ⟨10, 80, "", "", 0⟩] (-1) (-1)
      (by decide),
    h3 [.ok ⟨0, 20, "未知错误"⟩, .ok ⟨1, 80, "未知错误"⟩,
      .ok ⟨2, 0, "未知错误"⟩] 0 (-1) (-1) (by decide) (by decide)⟩

end Chanjing

namespace Chanjing

/- ────────────────────── api.py: UploadProgress ───────────────────────── -/

/-- In-memory state of `UploadProgress`: `_pos` and `_last_pct` (which
starts at -20). The byte slices returned by `read` are determined by
`pos`, so the buffer content itself is not tracked. -/
structure UPState where
  pos : ℕ
  lastPct : ℤ
deriving DecidableEq, Repr

/-- Constructor state of `UploadProgress` (api.py lines 61-72). -/
def upInit : UPState := ⟨0, -20⟩

/-- api.py lines 77-83: the position after one `read`: `size` is `none`
for `-1`/`None` (read to the end), `some n` for a non-negative size (the
file-object protocol passes only those). -/
def upNewPos (total pos : ℕ) : Option ℕ → ℕ
  | none => total
  | some n => min (pos + n) total

/-- api.py line 86: `int(self._pos / self._total * 100)`, exact rational
arithmetic in place of the float computation. -/
def upPct (total newPos : ℕ) : ℤ :=
  ((newPos * 100) / total : ℕ)

/-- api.py lines 74-99, `UploadProgress.read` for a buffer of `total`
bytes: returns the new state and the percent handed to the progress
callback when the report condition `pct >= last_pct + 20 or pct >= 100`
fires. -/
def upRead (total : ℕ) (st : UPState) (size : Option ℕ) :
    UPState × Option ℤ :=
  if total ≤ st.pos then (st, none)
  else
    let newPos := upNewPos total st.pos size
    if 0 < total then
      let pct := upPct total newPos
      if st.lastPct + 20 ≤ pct ∨ 100 ≤ pct then (⟨newPos, pct⟩, some pct)
      else (⟨newPos, st.lastPct⟩, none)
    else (⟨newPos, st.lastPct⟩, none)

/-- A sequence of `read` calls: final state and the percents passed to the
callback, in order. -/
def upRun (total : ℕ) : UPState → List (Option ℕ) → UPState × List ℤ
  | st, [] => (st, [])
  | st, s :: rest =>
      let x := upRead total st s
      let r := upRun total x.1 rest
      match x.2 with
      | some p => (r.1, p :: r.2)
      | none => (r.1, r.2)

end Chanjing

namespace Chanjing

/- ────────────────────────── theorems: C6 ─────────────────────────────── -/

lemma upNewPos_le (total pos : ℕ) (size : Option ℕ) :
    upNewPos total pos size ≤ total := by
  cases size with
  | none => exact le_refl total
  | some n => exact min_le_right _ _

lemma upPct_le_100 {total : ℕ} (newPos : ℕ) (h : 0 < total)
    (hle : newPos ≤ total) : upPct total newPos ≤ 100 := by
  unfold upPct
  have h1 : newPos * 100 ≤ total * 100 := by omega
  have h2 : newPos * 100 / total ≤ total * 100 / total :=
    Nat.div_le_div_right h1
  have h3 : total * 100 / total = 100 := Nat.mul_div_cancel_left 100 h
  have h4 : newPos * 100 / total ≤ 100 := le_trans h2 (le_of_eq h3)
  exact_mod_cast h4

lemma upPct_100_imp {total : ℕ} (newPos : ℕ) (h : 0 < total)
    (hle : newPos ≤ total) (hge : 100 ≤ upPct total newPos) :
    newPos = total := by
  unfold upPct at hge
  have hnat : (100 : ℕ) ≤ newPos * 100 / total := by exact_mod_cast hge
  have hm := (Nat.le_div_iff_mul_le h).mp hnat
  omega

lemma upRead_stop (total : ℕ) (st : UPState) (size : Option ℕ)
    (h : total ≤ st.pos) : upRead total st size = (st, none) := by
  simp [upRead, h]

lemma upRead_emit (total : ℕ) (st : UPState) (size : Option ℕ)
    (h : st.pos < total)
    (hc : st.lastPct + 20 ≤ upPct total (upNewPos total st.pos size)
      ∨ 100 ≤ upPct total (upNewPos total st.pos size)) :
    upRead total st size =
      (⟨upNewPos total st.pos size, upPct total (upNewPos total st.pos size)⟩,
        some (upPct total (upNewPos total st.pos size))) := by
  have h1 : ¬ total ≤ st.pos := not_le.mpr h
  have h2 : 0 < total := by omega
  simp [upRead, h1, h2, hc]

lemma upRead_noemit (total : ℕ) (st : UPState) (size : Option ℕ)
    (h : st.pos < total)
    (hc : ¬ (st.lastPct + 20 ≤ upPct total (upNewPos total st.pos size)
      ∨ 100 ≤ upPct total (upNewPos total st.pos size))) :
    upRead total st size =
      (⟨upNewPos total st.pos size, st.lastPct⟩, none) := by
  have h1 : ¬ total ≤ st.pos := not_le.mpr h
  have h2 : 0 < total := by omega
  simp [upRead, h1, h2, hc]

lemma upRun_stop (total : ℕ) :
    ∀ (sizes : List (Option ℕ)) (st : UPState), total ≤ st.pos →
    upRun total st sizes = (st, []) := by
  intro sizes
  induction sizes with
  | nil => intro st h; rfl
  | cons s rest ih =>
      intro st h
      simp only [upRun, upRead_stop total st s h]
      rw [ih st h]

lemma upRun_invariant (total : ℕ) :
    ∀ (sizes : List (Option ℕ)) (st : UPState),
    st.pos ≤ total → st.lastPct ≤ 100 →
    List.Chain' (fun p q => p ≤ q) (st.lastPct :: (upRun total st sizes).2)
    ∧ List.Chain' (fun p q => q = 100 ∨ p + 20 ≤ q)
        (st.lastPct :: (upRun total st sizes).2)
    ∧ (∀ p ∈ (upRun total st sizes).2, p ≤ 100)
    ∧ (upRun total st sizes).2.count 100 ≤ 1 := by
  intro sizes
  induction sizes with
  | nil => intro st h1 h2; simp [upRun]
  | cons s rest ih =>
      intro st h1 h2
      rcases lt_or_ge st.pos total with hlt | hge
      · have htot : 0 < total := by omega
        have hnple : upNewPos total st.pos s ≤ total := upNewPos_le total st.pos s
        have hpcle : upPct total (upNewPos total st.pos s) ≤ 100 :=
          upPct_le_100 _ htot hnple
        by_cases hc : st.lastPct + 20 ≤ upPct total (upNewPos total st.pos s)
            ∨ 100 ≤ upPct total (upNewPos total st.pos s)
        · simp only [upRun, upRead_emit total st s hlt hc]
          obtain ⟨ihA, ihB, ihC, ihD⟩ :=
            ih ⟨upNewPos total st.pos s, upPct total (upNewPos total st.pos s)⟩
              hnple hpcle
          refine ⟨?_, ?_, ?_, ?_⟩
          · rw [List.chain'_cons]
            refine ⟨?_, ihA⟩
            rcases hc with hc | hc <;> omega
          · rw [List.chain'_cons]
            refine ⟨?_, ihB⟩
            rcases hc with hc | hc
            · exact Or.inr hc
            · exact Or.inl (by omega)
          · intro p hp
            rcases List.mem_cons.mp hp with hph | hpt
            · exact hph ▸ hpcle
            · exact ihC p hpt
          · by_cases hp100 : upPct total (upNewPos total st.pos s) = 100
            · have hnp : upNewPos total st.pos s = total :=
                upPct_100_imp _ htot hnple (by omega)
              rw [upRun_stop total rest _ (by simp [hnp])]
              simp [hp100]
            · simpa [List.count_cons, hp100] using ihD
        · simp only [upRun, upRead_noemit total st s hlt hc]
          exact ih ⟨upNewPos total st.pos s, st.lastPct⟩ hnple h2
      · simp only [upRun, upRead_stop total st s hge]
        exact ih st h1 h2

lemma getLast?_cons_ne {α : Type} (a : α) (l : List α) (h : l ≠ []) :
    (a :: l).getLast? = l.getLast? := by
  cases l with
  | nil => exact absurd rfl h
  | cons b t => rfl

lemma upRun_full_read_last (total : ℕ) :
    ∀ (sizes : List (Option ℕ)) (st : UPState), st.pos < total →
    (upRun total st sizes).1.pos = total →
    (upRun total st sizes).2.getLast? = some 100 := by
  intro sizes
  induction sizes with
  | nil =>
      intro st hlt hfin
      simp only [upRun] at hfin
      omega
  | cons s rest ih =>
      intro st hlt hfin
      have htot : 0 < total := by omega
      by_cases hnp : upNewPos total st.pos s = total
      · have hpct : upPct total (upNewPos total st.pos s) = 100 := by
          rw [hnp]
          unfold upPct
          rw [Nat.mul_div_cancel_left 100 htot]
          rfl
        have hc : st.lastPct + 20 ≤ upPct total (upNewPos total st.pos s)
            ∨ 100 ≤ upPct total (upNewPos total st.pos s) :=
          Or.inr (by rw [hpct])
        simp only [upRun, upRead_emit total st s hlt hc]
        rw [upRun_stop total rest _ (by simp [hnp])]
        simp [hpct]
      · have hnplt : upNewPos total st.pos s < total :=
          lt_of_le_of_ne (upNewPos_le total st.pos s) hnp
        by_cases hc : st.lastPct + 20 ≤ upPct total (upNewPos total st.pos s)
            ∨ 100 ≤ upPct total (upNewPos total st.pos s)
        · simp only [upRun, upRead_emit total st s hlt hc] at hfin ⊢
          have hlast := ih _ hnplt hfin
          have hne : (upRun total
              ⟨upNewPos total st.pos s, upPct total (upNewPos total st.pos s)⟩
              rest).2 ≠ [] := by
            intro h0
            rw [h0] at hlast
            simp at hlast
          rw [getLast?_cons_ne _ _ hne]
          exact hlast
        · simp only [upRun, upRead_noemit total st s hlt hc] at hfin ⊢
          exact ih _ hnplt hfin

/-- C6: over any byte buffer and any sequence of `read` calls, the
percentages handed to the upload progress callback are non-decreasing,
consecutive reports are at least 20 points apart unless the later one is
the (at most one) report of 100, and a fully-read non-empty buffer ends
with a final report of exactly 100. -/
theorem c6_upload_progress (total : ℕ) (sizes : List (Option ℕ)) :
    List.Chain' (fun p q => p ≤ q) (upRun total upInit sizes).2
    ∧ List.Chain' (fun p q => q = 100 ∨ p + 20 ≤ q)
        (upRun total upInit sizes).2
    ∧ (upRun total upInit sizes).2.count 100 ≤ 1
    ∧ (0 < total → (upRun total upInit sizes).1.pos = total →
        (upRun total upInit sizes).2.getLast? = some 100) := by
  obtain ⟨hA, hB, _, hD⟩ :=
    upRun_invariant total sizes upInit (Nat.zero_le _) (by norm_num [upInit])
  refine ⟨hA.tail, hB.tail, hD, ?_⟩
  intro htot hfin
  exact upRun_full_read_last total sizes upInit htot hfin

/-- C6 witness: a 5-byte buffer read as 2 bytes then 3 bytes reports 40
then 100 — non-decreasing, a single 100, and a final 100 for the fully
read buffer. -/
theorem c6_upload_progress_witness :
    (upRun 5 upInit [some 2, some 3]).2 = [40, 100]
    ∧ (upRun 5 upInit [some 2, some 3]).2.getLast? = some 100 :=
  ⟨by decide,
    (c6_upload_progress 5 [some 2, some 3]).2.2.2 (by decide) (by decide)⟩

end Chanjing
